import Mathlib

/-!
Verification of the Response Store & Synchronization layer and the Insights
Aggregation engine of the council retreat survey application (`USU2.py`).

Cell contents are modelled as lists of characters (`Str`), so that the
`", "`-join/split codec and Python's `int()` parsing are fully executable and
provable.  Python exceptions are modelled with `Option`: a decode step that
would raise returns `none`, and the surrounding `try/except` of
`load_from_sheets` maps any `none` to the empty result, exactly as the code's
`except` branch returns `[]`.
-/

/-- A Python string, modelled as its list of characters. -/
abbrev Str := List Char

/-! ### Python `int()` and `str()` on integers -/

/-- Is `c` an ASCII decimal digit? -/
def isDigitCh (c : Char) : Bool := 48 ≤ c.toNat && c.toNat ≤ 57

/-- Value of a big-endian digit string, as folded up left to right. -/
def digitsVal (cs : Str) : Nat := cs.foldl (fun a c => 10 * a + (c.toNat - 48)) 0

/-- Parse a non-empty all-digit string to a natural number, else fail.
Models the digit-run core of Python `int()`. -/
def pyIntNat (cs : Str) : Option Nat :=
  if cs ≠ [] ∧ cs.all isDigitCh then some (digitsVal cs) else none

/-- Python `int(s)` on a cell string: optional single leading sign followed by
one or more decimal digits; anything else raises, modelled as `none`.
(Surrounding whitespace and digit underscores, which Python also accepts, do
not occur in encoded rows and are not modelled.) -/
def pyInt (cs : Str) : Option Int :=
  match cs with
  | [] => none
  | c :: rest =>
    if c = '-' then (pyIntNat rest).map (fun n => -(n : Int))
    else if c = '+' then (pyIntNat rest).map (fun n => (n : Int))
    else (pyIntNat (c :: rest)).map (fun n => (n : Int))

/-- Decimal representation of a natural number, as Python `str(n)`. -/
def natToChars (n : Nat) : Str :=
  if n = 0 then ['0']
  else ((Nat.digits 10 n).map (fun d => Char.ofNat (48 + d))).reverse

/-- Python `str(i)` for an integer. -/
def intToChars (i : Int) : Str :=
  if i < 0 then '-' :: natToChars i.natAbs else natToChars i.natAbs

/-! ### The `", "` join/split codec for multi-valued cells -/

/-- Python `", ".join(l)`. -/
def joinCS : List Str → Str
  | [] => []
  | [x] => x
  | x :: y :: rest => x ++ ',' :: ' ' :: joinCS (y :: rest)

/-- Python `s.split(", ")`: split on each leftmost occurrence of the
two-character delimiter. -/
def splitCS : Str → List Str
  | [] => [[]]
  | [c] => [[c]]
  | a :: b :: rest =>
    if a = ',' ∧ b = ' ' then [] :: splitCS rest
    else
      match splitCS (b :: rest) with
      | [] => [[a]]
      | h :: t => (a :: h) :: t

/-- Does the string contain the delimiter `", "` as a substring? -/
def hasCS : Str → Bool
  | [] => false
  | [_] => false
  | a :: b :: rest => (a = ',' && b = ' ') || hasCS (b :: rest)

/-- Decode one multi-valued cell: `cell.split(", ") if cell else []`. -/
def decodeMulti (cell : Str) : List Str :=
  if cell = [] then [] else splitCS cell

/-! ### The record schema -/

/-- One survey response: the fixed 29-field record built by the submission
form and decoded from a sheet row. -/
structure Record where
  timestamp : Str
  name : Str
  email : Str
  position : Str
  tenure : Str
  satisfaction : Int
  role_dislikes : Str
  executive_concerns : Str
  council_dynamics : Str
  student_body_challenges : Str
  achievements : Str
  weaknesses : Str
  skills_needed : Str
  constitution_knowledge : Str
  support_gaps : List Str
  support_details : Str
  code_of_conduct : Str
  financial_challenges : Str
  financial_impact : List Str
  financial_details : Str
  academic_challenges : Str
  academic_impact : List Str
  academic_details : Str
  support_needs : List Str
  retreat_goals : Str
  training_topics : Str
  retreat_priorities : List Str
  previous_retreats : Str
  additional_comments : Str
  deriving Repr, DecidableEq

/-- A record with every text field empty, satisfaction 3 and every
multi-valued field empty; base point for concrete test records. -/
def blankRecord : Record where
  timestamp := []
  name := []
  email := []
  position := []
  tenure := []
  satisfaction := 3
  role_dislikes := []
  executive_concerns := []
  council_dynamics := []
  student_body_challenges := []
  achievements := []
  weaknesses := []
  skills_needed := []
  constitution_knowledge := []
  support_gaps := []
  support_details := []
  code_of_conduct := []
  financial_challenges := []
  financial_impact := []
  financial_details := []
  academic_challenges := []
  academic_impact := []
  academic_details := []
  support_needs := []
  retreat_goals := []
  training_topics := []
  retreat_priorities := []
  previous_retreats := []
  additional_comments := []

/-! ### Row codec (`save_to_sheets` row building / `load_from_sheets` loop) -/

/-- The flat 29-cell row built inside `save_to_sheets`: scalars pass through,
`satisfaction` is stringified, multi-valued fields are `", "`-joined. -/
def encodeRow (r : Record) : List Str :=
  [r.timestamp, r.name, r.email, r.position, r.tenure,
   intToChars r.satisfaction,
   r.role_dislikes, r.executive_concerns, r.council_dynamics,
   r.student_body_challenges, r.achievements, r.weaknesses, r.skills_needed,
   r.constitution_knowledge,
   joinCS r.support_gaps,
   r.support_details, r.code_of_conduct, r.financial_challenges,
   joinCS r.financial_impact,
   r.financial_details, r.academic_challenges,
   joinCS r.academic_impact,
   r.academic_details,
   joinCS r.support_needs,
   r.retreat_goals, r.training_topics,
   joinCS r.retreat_priorities,
   r.previous_retreats, r.additional_comments]

/-- `while len(row) < 29: row.append("")` — pad a short row with empty cells. -/
def padRow (row : List Str) : List Str :=
  row ++ List.replicate (29 - row.length) []

/-- Cell `i` of the padded row. -/
def getCell (row : List Str) (i : Nat) : Str := (padRow row).getD i []

/-- Decode one sheet row into a record, as the loop body of
`load_from_sheets`: the row is padded to 29 cells; `satisfaction` is
`int(row[5]) if row[5] else 3`, whose `int()` may raise (`none`); multi-valued
cells are split on `", "` when non-empty. -/
def decodeRow (row : List Str) : Option Record :=
  match (if getCell row 5 = [] then some 3 else pyInt (getCell row 5)) with
  | none => none
  | some s =>
    some { timestamp := getCell row 0
           name := getCell row 1
           email := getCell row 2
           position := getCell row 3
           tenure := getCell row 4
           satisfaction := s
           role_dislikes := getCell row 6
           executive_concerns := getCell row 7
           council_dynamics := getCell row 8
           student_body_challenges := getCell row 9
           achievements := getCell row 10
           weaknesses := getCell row 11
           skills_needed := getCell row 12
           constitution_knowledge := getCell row 13
           support_gaps := decodeMulti (getCell row 14)
           support_details := getCell row 15
           code_of_conduct := getCell row 16
           financial_challenges := getCell row 17
           financial_impact := decodeMulti (getCell row 18)
           financial_details := getCell row 19
           academic_challenges := getCell row 20
           academic_impact := decodeMulti (getCell row 21)
           academic_details := getCell row 22
           support_needs := decodeMulti (getCell row 23)
           retreat_goals := getCell row 24
           training_topics := getCell row 25
           retreat_priorities := decodeMulti (getCell row 26)
           previous_retreats := getCell row 27
           additional_comments := getCell row 28 }

/-- The `for row in values:` decode loop: every row must decode, a raising
row aborting the whole loop (`none`). -/
def decodeRows : List (List Str) → Option (List Record)
  | [] => some []
  | row :: rest =>
    match decodeRow row, decodeRows rest with
    | some r, some rs => some (r :: rs)
    | _, _ => none

/-- `load_from_sheets`: disabled backend or failed service/read (`none`)
returns `[]`; `if not values: return []`; otherwise decode every row inside
the `try`, any raising row sending the whole call to the `except` branch,
which returns `[]`. -/
def load_from_sheets (useRemote : Bool) (fetch : Option (List (List Str))) :
    List Record :=
  if !useRemote then []
  else
    match fetch with
    | none => []
    | some values =>
      if values = [] then []
      else
        match decodeRows values with
        | none => []
        | some rs => rs

/-! ### Session state, facade operations (`submit` handler, refresh, clear) -/

/-- The mutable state the handlers act on: the session's local response list
(`st.session_state.responses`) and the remote sheet's data rows. -/
structure World where
  responses : List Record
  remote_rows : List (List Str)
  deriving Repr, DecidableEq

/-- Messages the submission handler surfaces to the user. -/
inductive UiNote
  | noteSuccessSheets
  | noteWarnSheetsFailed
  | noteSuccessRecorded
  deriving Repr, DecidableEq

/-- `save_to_sheets`: returns `False` when the backend is disabled; otherwise
appends the encoded row remotely and returns `True`, unless the remote call
fails (service unavailable or append raising), in which case the state is
unchanged and `False` is returned.  `remoteOk` abstracts whether the network
operation succeeds. -/
def save_to_sheets (useRemote remoteOk : Bool) (w : World) (r : Record) :
    Bool × World :=
  if !useRemote then (false, w)
  else if remoteOk then (true, { w with remote_rows := w.remote_rows ++ [encodeRow r] })
  else (false, w)

/-- The `if submitted:` handler: when the remote backend is enabled, try
`save_to_sheets` and surface a success or warning note; then always append the
record to `st.session_state.responses` and surface the recorded note. -/
def submitResponse (useRemote remoteOk : Bool) (w : World) (r : Record) :
    World × List UiNote :=
  let step :=
    if useRemote then
      let sv := save_to_sheets useRemote remoteOk w r
      (sv.2, if sv.1 then [UiNote.noteSuccessSheets] else [UiNote.noteWarnSheetsFailed])
    else (w, [])
  ({ step.1 with responses := step.1.responses ++ [r] },
   step.2 ++ [UiNote.noteSuccessRecorded])

/-- The dashboard/admin refresh handler:
`st.session_state.responses = load_from_sheets()`. -/
def refreshFromSheets (useRemote : Bool) (fetch : Option (List (List Str)))
    (w : World) : World :=
  { w with responses := load_from_sheets useRemote fetch }

/-- The admin "Clear All Responses" handler:
`st.session_state.responses = []`.  No sheets call is made. -/
def clearAllResponses (w : World) : World :=
  { w with responses := [] }

/-! ### Insights engine (Analysis Dashboard) -/

/-- The literal `"Yes"`. -/
def yesLit : Str := ['Y', 'e', 's']

/-- Sum of the satisfaction column. -/
def satisfactionSum (rs : List Record) : Int :=
  (rs.map (fun r => r.satisfaction)).sum

/-- `avg_sat = df['satisfaction'].mean()` over a non-empty frame, in exact
arithmetic. -/
def avg_sat (rs : List Record) : ℚ :=
  (satisfactionSum rs : ℚ) / (rs.length : ℚ)

/-- `pd.Series.mean()`: the arithmetic mean, or NaN (`none`) for an empty
series. -/
def seriesMean (l : List ℚ) : Option ℚ :=
  if l = [] then none else some (l.sum / (l.length : ℚ))

/-- The mean of the satisfaction column as the dashboard would compute it,
including the empty case pandas maps to NaN. -/
def meanSatisfaction (rs : List Record) : Option ℚ :=
  seriesMean (rs.map (fun r => (r.satisfaction : ℚ)))

/-- `financial_yes = len(df[df['financial_challenges'] == 'Yes'])`. -/
def financial_yes (rs : List Record) : Nat :=
  (rs.filter (fun r => decide (r.financial_challenges = yesLit))).length

/-- `academic_yes = len(df[df['academic_challenges'] == 'Yes'])`. -/
def academic_yes (rs : List Record) : Nat :=
  (rs.filter (fun r => decide (r.academic_challenges = yesLit))).length

/-- `all_priorities`: every selected retreat priority of every record, in
record order. -/
def all_priorities (rs : List Record) : List Str :=
  (rs.map (fun r => r.retreat_priorities)).flatten

/-- Distinct values of a list in order of first appearance (the key order a
pandas hashtable count produces). -/
def firstSeenKeys (l : List Str) : List Str :=
  l.foldl (fun acc x => if x ∈ acc then acc else acc ++ [x]) []

/-- Insert a `(category, count)` pair into a count-descending list, before the
first entry of count ≤ its own, so that the sort below is stable. -/
def insertByCountDesc (p : Str × Nat) : List (Str × Nat) → List (Str × Nat)
  | [] => [p]
  | q :: rest => if q.2 ≤ p.2 then p :: q :: rest else q :: insertByCountDesc p rest

/-- Stable insertion sort by count, descending. -/
def sortByCountDesc : List (Str × Nat) → List (Str × Nat)
  | [] => []
  | p :: rest => insertByCountDesc p (sortByCountDesc rest)

/-- `pd.Series(l).value_counts()`: pairs each distinct value with its
multiplicity and sorts by count descending; the underlying count table is in
first-appearance order and the sort is stable, so tied categories keep
first-seen order. -/
def value_counts (l : List Str) : List (Str × Nat) :=
  sortByCountDesc ((firstSeenKeys l).map (fun k => (k, l.count k)))

/-- `value_counts(...).head(n)`. -/
def topN (l : List Str) (n : Nat) : List (Str × Nat) :=
  (value_counts l).take n

/-- `top_3.index`: the categories of the three most frequent priorities. -/
def top_3 (rs : List Record) : List Str :=
  (topN (all_priorities rs) 3).map Prod.fst

/-- A threshold-triggered finding of the insights section. -/
inductive Finding
  | lowSatisfaction
  | financialSupport
  | academicBalance
  | focusAreas (tops : List Str)
  deriving Repr, DecidableEq

/-- The "Key Insights & Recommendations" section, for a non-empty response
frame: `avg_sat < 3` flags low satisfaction, counts above `len(df) * 0.3` flag
financial and academic concerns, and a non-empty priority list yields the
focus-areas finding naming the top 3 priorities.  (Python's float arithmetic
for `len(df) * 0.3` agrees with exact rationals on every integer comparison
arising here, so the thresholds are modelled exactly.) -/
def insights (rs : List Record) : List Finding :=
  (if avg_sat rs < 3 then [Finding.lowSatisfaction] else []) ++
  (if (rs.length : ℚ) * (3 / 10) < (financial_yes rs : ℚ) then [Finding.financialSupport] else []) ++
  (if (rs.length : ℚ) * (3 / 10) < (academic_yes rs : ℚ) then [Finding.academicBalance] else []) ++
  (if all_priorities rs ≠ [] then [Finding.focusAreas (top_3 rs)] else [])

/-! ### Lemmas: `int(str(i)) = i` -/

theorem toNat_digit_char (d : Nat) (h : d < 10) :
    (Char.ofNat (48 + d)).toNat = 48 + d := by
  interval_cases d <;> decide

theorem isDigitCh_digit_char (d : Nat) (h : d < 10) :
    isDigitCh (Char.ofNat (48 + d)) = true := by
  interval_cases d <;> decide

theorem foldl_digit_chars (ds : List Nat) (h : ∀ d ∈ ds, d < 10) (a : Nat) :
    ((ds.map (fun d => Char.ofNat (48 + d))).reverse).foldl
      (fun acc c => 10 * acc + (c.toNat - 48)) a
      = a * 10 ^ ds.length + Nat.ofDigits 10 ds := by
  induction ds generalizing a with
  | nil => simp
  | cons d ds ih =>
    have hd : d < 10 := h d (List.mem_cons_self _ _)
    have hds : ∀ x ∈ ds, x < 10 := fun x hx => h x (List.mem_cons_of_mem _ hx)
    simp only [List.map_cons, List.reverse_cons, List.foldl_append, ih hds a,
      List.foldl_cons, List.foldl_nil, Nat.ofDigits_cons, List.length_cons]
    rw [toNat_digit_char d hd]
    ring_nf
    omega

theorem natToChars_ne_nil (n : Nat) : natToChars n ≠ [] := by
  unfold natToChars
  by_cases h : n = 0
  · simp [h]
  · simp only [h, if_false]
    intro hc
    rw [List.reverse_eq_nil_iff, List.map_eq_nil_iff] at hc
    exact (Nat.digits_ne_nil_iff_ne_zero.2 h) hc

theorem all_isDigitCh_natToChars (n : Nat) :
    (natToChars n).all isDigitCh = true := by
  unfold natToChars
  by_cases h : n = 0
  · simp [h]; decide
  · simp only [h, if_false, List.all_eq_true, List.mem_reverse, List.mem_map]
    rintro c ⟨d, hd, rfl⟩
    exact isDigitCh_digit_char d (Nat.digits_lt_base (by norm_num) hd)

theorem pyIntNat_natToChars (n : Nat) : pyIntNat (natToChars n) = some n := by
  unfold pyIntNat
  rw [if_pos ⟨natToChars_ne_nil n, all_isDigitCh_natToChars n⟩]
  by_cases h : n = 0
  · subst h; decide
  · unfold natToChars
    simp only [h, if_false, digitsVal]
    rw [foldl_digit_chars _ (fun d hd => Nat.digits_lt_base (by norm_num) hd) 0]
    simp [Nat.ofDigits_digits]

theorem head_natToChars_digit (n : Nat) (c : Char) (rest : Str)
    (h : natToChars n = c :: rest) : isDigitCh c = true := by
  have := all_isDigitCh_natToChars n
  rw [h] at this
  simp only [List.all_cons, Bool.and_eq_true] at this
  exact this.1

theorem pyInt_natToChars (n : Nat) : pyInt (natToChars n) = some (n : Int) := by
  rcases hcs : natToChars n with _ | ⟨c, rest⟩
  · exact absurd hcs (natToChars_ne_nil n)
  · have hdig : isDigitCh c = true := head_natToChars_digit n c rest hcs
    have hm : c ≠ '-' := by
      intro hc; subst hc; revert hdig; decide
    have hp : c ≠ '+' := by
      intro hc; subst hc; revert hdig; decide
    have := pyIntNat_natToChars n
    rw [hcs] at this
    simp [pyInt, hm, hp, this]

theorem pyInt_intToChars (i : Int) : pyInt (intToChars i) = some i := by
  unfold intToChars
  by_cases h : i < 0
  · simp only [h, if_true]
    simp [pyInt, pyIntNat_natToChars]
    rw [abs_of_neg h, neg_neg]
  · simp only [h, if_false]
    rw [pyInt_natToChars]
    congr 1
    omega

theorem intToChars_ne_nil (i : Int) : intToChars i ≠ [] := by
  unfold intToChars
  by_cases h : i < 0
  · simp [h]
  · simp only [h, if_false]
    exact natToChars_ne_nil _

/-! ### Lemmas: `", "` split/join round trip -/

theorem splitCS_cons₂ (a b : Char) (rest : Str) :
    splitCS (a :: b :: rest) =
      if a = ',' ∧ b = ' ' then [] :: splitCS rest
      else match splitCS (b :: rest) with
        | [] => [[a]]
        | h :: t => (a :: h) :: t := by
  rw [splitCS.eq_def]

theorem hasCS_cons₂ (a b : Char) (rest : Str) :
    hasCS (a :: b :: rest) = ((a = ',' && b = ' ') || hasCS (b :: rest)) := by
  rw [hasCS.eq_def]

theorem splitCS_no_delim (x : Str) (h : hasCS x = false) : splitCS x = [x] := by
  induction x with
  | nil => rfl
  | cons a x ih =>
    cases x with
    | nil => rfl
    | cons b x' =>
      rw [hasCS_cons₂] at h
      simp only [Bool.or_eq_false_iff, Bool.and_eq_false_iff,
        decide_eq_false_iff_not] at h
      obtain ⟨hab, hrest⟩ := h
      have hcond : ¬(a = ',' ∧ b = ' ') := by
        rintro ⟨ha, hb⟩
        rcases hab with h' | h' <;> exact h' (by assumption)
      rw [splitCS_cons₂, if_neg hcond, ih hrest]

theorem splitCS_append_delim (x : Str) (t : Str) (h : hasCS x = false) :
    splitCS (x ++ ',' :: ' ' :: t) = x :: splitCS t := by
  induction x with
  | nil =>
    rw [List.nil_append, splitCS_cons₂, if_pos ⟨rfl, rfl⟩]
  | cons a x ih =>
    cases x with
    | nil =>
      have hmid : splitCS (',' :: ' ' :: t) = [] :: splitCS t := by
        rw [splitCS_cons₂, if_pos ⟨rfl, rfl⟩]
      have hcond : ¬(a = ',' ∧ (',' : Char) = ' ') := by
        rintro ⟨-, hb⟩; exact absurd hb (by decide)
      rw [List.cons_append, List.nil_append, splitCS_cons₂, if_neg hcond, hmid]
    | cons b x' =>
      rw [hasCS_cons₂] at h
      simp only [Bool.or_eq_false_iff, Bool.and_eq_false_iff,
        decide_eq_false_iff_not] at h
      obtain ⟨hab, hrest⟩ := h
      have hcond : ¬(a = ',' ∧ b = ' ') := by
        rintro ⟨ha, hb⟩
        rcases hab with h' | h' <;> exact h' (by assumption)
      rw [show (b :: x') ++ ',' :: ' ' :: t = b :: (x' ++ ',' :: ' ' :: t) from rfl] at ih
      rw [List.cons_append,
        show (b :: x') ++ ',' :: ' ' :: t = b :: (x' ++ ',' :: ' ' :: t) from rfl,
        splitCS_cons₂, if_neg hcond, ih hrest]

theorem splitCS_joinCS (l : List Str) (h1 : l ≠ [])
    (h2 : ∀ x ∈ l, hasCS x = false) : splitCS (joinCS l) = l := by
  induction l with
  | nil => exact absurd rfl h1
  | cons x l ih =>
    cases l with
    | nil => exact splitCS_no_delim x (h2 x (List.mem_cons_self _ _))
    | cons y l' =>
      rw [joinCS, splitCS_append_delim x _ (h2 x (List.mem_cons_self _ _)),
        ih (List.cons_ne_nil _ _) (fun z hz => h2 z (List.mem_cons_of_mem _ hz))]

theorem joinCS_eq_nil_iff (l : List Str) : joinCS l = [] ↔ l = [] ∨ l = [[]] := by
  match l with
  | [] => simp [joinCS]
  | [x] => simp [joinCS]
  | x :: y :: r => simp [joinCS]

theorem decodeMulti_joinCS (l : List Str) (h1 : ∀ x ∈ l, hasCS x = false)
    (h2 : l ≠ [[]]) : decodeMulti (joinCS l) = l := by
  rcases eq_or_ne l [] with rfl | hne
  · rfl
  · unfold decodeMulti
    by_cases hj : joinCS l = []
    · rcases (joinCS_eq_nil_iff l).1 hj with rfl | rfl
      · exact absurd rfl hne
      · exact absurd rfl h2
    · rw [if_neg hj, splitCS_joinCS l hne h1]

/-! ### Lemmas: row decode/encode -/

/-- No element of the multi-valued field contains the `", "` delimiter. -/
def noDelim (f : List Str) : Prop := ∀ x ∈ f, hasCS x = false

/-- The conditions under which one multi-valued cell survives the
join/split codec: no element contains the delimiter and the field is not the
singleton empty string (whose join is the empty cell, decoded back as `[]`). -/
def multiOk (f : List Str) : Prop := noDelim f ∧ f ≠ [[]]

instance (f : List Str) : Decidable (noDelim f) := by
  unfold noDelim; infer_instance

instance (f : List Str) : Decidable (multiOk f) := by
  unfold multiOk; infer_instance

theorem decodeRow_encodeRow (r : Record)
    (h14 : multiOk r.support_gaps) (h18 : multiOk r.financial_impact)
    (h21 : multiOk r.academic_impact) (h23 : multiOk r.support_needs)
    (h26 : multiOk r.retreat_priorities) :
    decodeRow (encodeRow r) = some r := by
  have hsat : (if getCell (encodeRow r) 5 = [] then some 3
      else pyInt (getCell (encodeRow r) 5)) = some r.satisfaction := by
    rw [show getCell (encodeRow r) 5 = intToChars r.satisfaction from rfl,
      if_neg (intToChars_ne_nil r.satisfaction), pyInt_intToChars]
  unfold decodeRow
  rw [hsat]
  rw [show getCell (encodeRow r) 14 = joinCS r.support_gaps from rfl,
    show getCell (encodeRow r) 18 = joinCS r.financial_impact from rfl,
    show getCell (encodeRow r) 21 = joinCS r.academic_impact from rfl,
    show getCell (encodeRow r) 23 = joinCS r.support_needs from rfl,
    show getCell (encodeRow r) 26 = joinCS r.retreat_priorities from rfl,
    decodeMulti_joinCS _ h14.1 h14.2, decodeMulti_joinCS _ h18.1 h18.2,
    decodeMulti_joinCS _ h21.1 h21.2, decodeMulti_joinCS _ h23.1 h23.2,
    decodeMulti_joinCS _ h26.1 h26.2]
  rfl

/-- Projecting the satisfaction of a decoded row: the `int(row[5]) if row[5]
else 3` expression, with decode failure propagating. -/
theorem decodeRow_map_satisfaction (row : List Str) :
    (decodeRow row).map Record.satisfaction =
      (if getCell row 5 = [] then some 3 else pyInt (getCell row 5)) := by
  unfold decodeRow
  generalize (if getCell row 5 = [] then some 3 else pyInt (getCell row 5)) = o
  cases o <;> rfl

/-- Decoding succeeds exactly when the satisfaction cell is empty or parses. -/
theorem decodeRow_isSome_iff (row : List Str) :
    (decodeRow row).isSome = true ↔
      (getCell row 5 = [] ∨ (pyInt (getCell row 5)).isSome = true) := by
  unfold decodeRow
  by_cases h5 : getCell row 5 = []
  · rw [if_pos h5]
    simp [h5]
  · rw [if_neg h5]
    simp only [h5, false_or]
    generalize pyInt (getCell row 5) = o
    cases o <;> simp

theorem getD_replicate_nil (m k : Nat) :
    (List.replicate m ([] : Str)).getD k [] = [] := by
  induction m generalizing k with
  | zero => rfl
  | succ m ih =>
    cases k with
    | zero => simp [List.replicate]
    | succ k => simp [List.replicate]

/-- Reading a padded cell with default `""` is reading the raw row with
default `""`: the padding only ever adds empty cells. -/
theorem getCell_eq_getD (row : List Str) (i : Nat) :
    getCell row i = row.getD i [] := by
  unfold getCell padRow
  rcases Nat.lt_or_ge i row.length with h | h
  · exact List.getD_append _ _ _ _ h
  · rw [List.getD_append_right _ _ _ _ h, List.getD_eq_default _ _ h,
      getD_replicate_nil]

theorem getD_take_nil (l : List Str) (n i : Nat) (h : i < n) :
    (l.take n).getD i [] = l.getD i [] := by
  induction n generalizing l i with
  | zero => omega
  | succ n ih =>
    cases l with
    | nil => simp
    | cons a l' =>
      cases i with
      | zero => simp
      | succ i => simpa using ih l' i (by omega)

/-- Two rows with the same 29 padded cells decode identically. -/
theorem decodeRow_eq_of_cells (row row' : List Str)
    (h : ∀ i, i < 29 → getCell row i = getCell row' i) :
    decodeRow row = decodeRow row' := by
  unfold decodeRow
  rw [h 0 (by norm_num), h 1 (by norm_num), h 2 (by norm_num),
    h 3 (by norm_num), h 4 (by norm_num), h 5 (by norm_num),
    h 6 (by norm_num), h 7 (by norm_num), h 8 (by norm_num),
    h 9 (by norm_num), h 10 (by norm_num), h 11 (by norm_num),
    h 12 (by norm_num), h 13 (by norm_num), h 14 (by norm_num),
    h 15 (by norm_num), h 16 (by norm_num), h 17 (by norm_num),
    h 18 (by norm_num), h 19 (by norm_num), h 20 (by norm_num),
    h 21 (by norm_num), h 22 (by norm_num), h 23 (by norm_num),
    h 24 (by norm_num), h 25 (by norm_num), h 26 (by norm_num),
    h 27 (by norm_num), h 28 (by norm_num)]

/-- If some row of the fetched values fails to decode, the whole load lands
in the `except` branch and returns the empty list. -/
theorem decodeRows_none (values : List (List Str)) (row : List Str)
    (h1 : row ∈ values) (h2 : decodeRow row = none) :
    decodeRows values = none := by
  induction values with
  | nil => cases h1
  | cons v vs ih =>
    rcases List.mem_cons.1 h1 with rfl | hmem
    · rw [decodeRows, h2]
    · rw [decodeRows, ih hmem]
      cases decodeRow v <;> rfl

/-! ### Lemmas: `value_counts` ordering and stability -/

theorem mem_insertByCountDesc (p q : Str × Nat) (s : List (Str × Nat)) :
    q ∈ insertByCountDesc p s ↔ q = p ∨ q ∈ s := by
  induction s with
  | nil => simp [insertByCountDesc]
  | cons x s ih =>
    unfold insertByCountDesc
    by_cases h : x.2 ≤ p.2
    · simp [h]
    · simp [h, ih]
      tauto

theorem pairwise_insertByCountDesc (p : Str × Nat) (s : List (Str × Nat))
    (hs : s.Pairwise (fun a b => b.2 ≤ a.2)) :
    (insertByCountDesc p s).Pairwise (fun a b => b.2 ≤ a.2) := by
  induction s with
  | nil => simp [insertByCountDesc]
  | cons x s ih =>
    unfold insertByCountDesc
    rcases List.pairwise_cons.1 hs with ⟨hx, hs'⟩
    by_cases h : x.2 ≤ p.2
    · rw [if_pos h]
      refine List.pairwise_cons.2 ⟨?_, hs⟩
      intro q hq
      rcases List.mem_cons.1 hq with rfl | hq'
      · exact h
      · exact le_trans (hx q hq') h
    · rw [if_neg h]
      refine List.pairwise_cons.2 ⟨?_, ih hs'⟩
      intro q hq
      rcases (mem_insertByCountDesc p q s).1 hq with rfl | hq'
      · omega
      · exact hx q hq'

theorem pairwise_sortByCountDesc (s : List (Str × Nat)) :
    (sortByCountDesc s).Pairwise (fun a b => b.2 ≤ a.2) := by
  induction s with
  | nil => simp [sortByCountDesc]
  | cons p s ih => exact pairwise_insertByCountDesc p _ ih

theorem mem_sortByCountDesc (q : Str × Nat) (s : List (Str × Nat)) :
    q ∈ sortByCountDesc s ↔ q ∈ s := by
  induction s with
  | nil => simp [sortByCountDesc]
  | cons p s ih =>
    rw [sortByCountDesc, mem_insertByCountDesc]
    simp [ih]

/-- Stability of the insertion: filtering the inserted list at any fixed
count gives the same as filtering with the new pair in front. -/
theorem filter_insertByCountDesc (c : Nat) (p : Str × Nat)
    (s : List (Str × Nat)) :
    (insertByCountDesc p s).filter (fun q => decide (q.2 = c)) =
      (p :: s).filter (fun q => decide (q.2 = c)) := by
  induction s with
  | nil => rfl
  | cons x s ih =>
    unfold insertByCountDesc
    by_cases h : x.2 ≤ p.2
    · rw [if_pos h]
    · rw [if_neg h]
      by_cases hp : p.2 = c
      · have hx : ¬(x.2 = c) := by omega
        simp [List.filter_cons, hp, hx, ih]
      · simp [List.filter_cons, hp, ih]

/-- Stability of the whole sort: the entries carrying any fixed count stay in
their input order. -/
theorem filter_sortByCountDesc (c : Nat) (s : List (Str × Nat)) :
    (sortByCountDesc s).filter (fun q => decide (q.2 = c)) =
      s.filter (fun q => decide (q.2 = c)) := by
  induction s with
  | nil => rfl
  | cons p s ih =>
    rw [sortByCountDesc, filter_insertByCountDesc]
    simp only [List.filter_cons, ih]

theorem value_counts_count (l : List Str) (p : Str × Nat)
    (hp : p ∈ value_counts l) : p.2 = l.count p.1 := by
  unfold value_counts at hp
  rw [mem_sortByCountDesc] at hp
  obtain ⟨k, hk, rfl⟩ := List.mem_map.1 hp
  rfl

theorem value_counts_pairwise (l : List Str) :
    (value_counts l).Pairwise (fun a b => b.2 ≤ a.2) :=
  pairwise_sortByCountDesc _

/-- The categories of `value_counts` holding any fixed count `c` appear in
exactly the order the categories were first seen in the input. -/
theorem value_counts_stable (l : List Str) (c : Nat) :
    ((value_counts l).filter (fun q => decide (q.2 = c))).map Prod.fst =
      (firstSeenKeys l).filter (fun k => decide (l.count k = c)) := by
  unfold value_counts
  rw [filter_sortByCountDesc]
  generalize firstSeenKeys l = K
  induction K with
  | nil => rfl
  | cons k K ih =>
    by_cases h : l.count k = c <;>
      simp [List.filter_cons, List.map_cons, h, ih]

/-! ### Lemmas: membership in the insights list -/

theorem mem_ite_singleton {α : Type} (a b : α) (c : Prop) [Decidable c] :
    (a ∈ (if c then [b] else [])) ↔ c ∧ a = b := by
  by_cases h : c <;> simp [h]

theorem mem_insights_low (rs : List Record) :
    Finding.lowSatisfaction ∈ insights rs ↔ avg_sat rs < 3 := by
  simp [insights, List.mem_append, mem_ite_singleton]

theorem mem_insights_financial (rs : List Record) :
    Finding.financialSupport ∈ insights rs ↔
      (rs.length : ℚ) * (3 / 10) < (financial_yes rs : ℚ) := by
  simp [insights, List.mem_append, mem_ite_singleton]

theorem mem_insights_academic (rs : List Record) :
    Finding.academicBalance ∈ insights rs ↔
      (rs.length : ℚ) * (3 / 10) < (academic_yes rs : ℚ) := by
  simp [insights, List.mem_append, mem_ite_singleton]

theorem mem_insights_focus (rs : List Record) (h : all_priorities rs ≠ []) :
    Finding.focusAreas (top_3 rs) ∈ insights rs := by
  simp [insights, List.mem_append, mem_ite_singleton, h]

/-- Decoding an encoded row always succeeds and returns the record with each
multi-valued field replaced by the join/split image of itself. -/
theorem decodeRow_encodeRow_raw (r : Record) :
    decodeRow (encodeRow r) =
      some { r with
        support_gaps := decodeMulti (joinCS r.support_gaps)
        financial_impact := decodeMulti (joinCS r.financial_impact)
        academic_impact := decodeMulti (joinCS r.academic_impact)
        support_needs := decodeMulti (joinCS r.support_needs)
        retreat_priorities := decodeMulti (joinCS r.retreat_priorities) } := by
  have hsat : (if getCell (encodeRow r) 5 = [] then some 3
      else pyInt (getCell (encodeRow r) 5)) = some r.satisfaction := by
    rw [show getCell (encodeRow r) 5 = intToChars r.satisfaction from rfl,
      if_neg (intToChars_ne_nil r.satisfaction), pyInt_intToChars]
  unfold decodeRow
  rw [hsat]
  rfl

/-- The dashboard mean over a non-empty collection is the exact arithmetic
mean of the satisfaction column. -/
theorem meanSatisfaction_eq (rs : List Record) (h : rs ≠ []) :
    meanSatisfaction rs = some ((satisfactionSum rs : ℚ) / (rs.length : ℚ)) := by
  unfold meanSatisfaction seriesMean satisfactionSum
  rw [if_neg (by simpa using h)]
  congr 1
  rw [Int.cast_list_sum, List.map_map]
  simp [Function.comp_def]

/-! ### Claim C1: round trip of the row codec -/

/-- Input refuting the round-trip law as stated: a multi-valued field holding
exactly one empty-string selection. -/
def recBadMulti : Record := { blankRecord with support_gaps := [[]] }

/-- C1 counterexample: no element of any multi-valued field of `recBadMulti`
contains the delimiter `", "`, yet decoding its encoded row does not give the
record back: `", ".join([""])` is the empty cell, which decodes to `[]`. -/
theorem roundtrip_fails_on_singleton_empty :
    (noDelim recBadMulti.support_gaps ∧ noDelim recBadMulti.financial_impact ∧
     noDelim recBadMulti.academic_impact ∧ noDelim recBadMulti.support_needs ∧
     noDelim recBadMulti.retreat_priorities) ∧
    decodeRow (encodeRow recBadMulti) ≠ some recBadMulti := by
  refine ⟨by decide, fun h => ?_⟩
  rw [decodeRow_encodeRow_raw] at h
  have h2 : decodeMulti (joinCS recBadMulti.support_gaps) =
      recBadMulti.support_gaps := by
    have h3 := congrArg (fun o => Option.map Record.support_gaps o) h
    simpa using h3
  exact absurd h2 (by decide)

/-- C1 (amended): for every record whose multi-valued fields contain no
element with the `", "` delimiter and are not the singleton sequence of the
empty string, decoding the encoded row gives back the same record, field for
field. -/
theorem roundtrip_decode_encode (r : Record)
    (h14 : multiOk r.support_gaps) (h18 : multiOk r.financial_impact)
    (h21 : multiOk r.academic_impact) (h23 : multiOk r.support_needs)
    (h26 : multiOk r.retreat_priorities) :
    decodeRow (encodeRow r) = some r :=
  decodeRow_encodeRow r h14 h18 h21 h23 h26

/-- A concrete record with multi-valued selections. -/
def sampleMultiRec : Record :=
  { blankRecord with
    name := ['A'],
    satisfaction := 5,
    support_gaps := [['g', '1'], ['g', '2']],
    retreat_priorities := [['p', '1']] }

/-- C1 witness: the amended round trip at a concrete record. -/
theorem roundtrip_decode_encode_witness :
    decodeRow (encodeRow sampleMultiRec) = some sampleMultiRec :=
  roundtrip_decode_encode sampleMultiRec (by decide) (by decide) (by decide)
    (by decide) (by decide)

/-! ### Claim C2: decoded satisfaction values -/

/-- A row whose satisfaction cell holds `"6"`. -/
def rowSat6 : List Str := [[], [], [], [], [], ['6']]

/-- C2 counterexample: the decoder performs no range check, so the row with
satisfaction cell `"6"` decodes to satisfaction 6, outside 1..5. -/
theorem decoded_satisfaction_out_of_range :
    (decodeRow rowSat6).map Record.satisfaction = some 6 ∧
    ¬(1 ≤ (6 : Int) ∧ (6 : Int) ≤ 5) :=
  ⟨by decide, by decide⟩

/-- C2 (amended): an empty satisfaction cell decodes to the default 3, and a
non-empty cell decodes to exactly the integer it parses to, unclamped; a
non-empty cell that does not parse makes the row decode fail (see C3). -/
theorem decoded_satisfaction_spec (row : List Str) :
    (getCell row 5 = [] → (decodeRow row).map Record.satisfaction = some 3) ∧
    (∀ k : Int, getCell row 5 ≠ [] → pyInt (getCell row 5) = some k →
      (decodeRow row).map Record.satisfaction = some k) := by
  constructor
  · intro h5
    rw [decodeRow_map_satisfaction, if_pos h5]
  · intro k h5 hk
    rw [decodeRow_map_satisfaction, if_neg h5, hk]

/-- A row whose satisfaction cell holds `"4"`. -/
def rowSat4 : List Str := [[], [], [], [], [], ['4']]

/-- C2 witness: the empty row decodes with satisfaction 3 and the `"4"` row
with satisfaction 4. -/
theorem decoded_satisfaction_spec_witness :
    (decodeRow ([] : List Str)).map Record.satisfaction = some 3 ∧
    (decodeRow rowSat4).map Record.satisfaction = some 4 :=
  ⟨(decoded_satisfaction_spec []).1 (by decide),
   (decoded_satisfaction_spec rowSat4).2 4 (by decide) (by decide)⟩

/-! ### Claim C3: totality of row decoding -/

/-- A row whose satisfaction cell holds the unparseable `"abc"`. -/
def rowBadSat : List Str := [[], [], [], [], [], ['a', 'b', 'c']]

/-- A row whose satisfaction cell holds `"5"`. -/
def rowFine : List Str := [[], [], [], [], [], ['5']]

/-- C3 counterexample: decoding is not total — a non-empty non-numeric
satisfaction cell raises, and because the whole decode loop sits in one
`try`, that single corrupt row makes the load return the empty collection,
losing the decodable row next to it. -/
theorem decode_raises_and_blocks :
    decodeRow rowBadSat = none ∧
    load_from_sheets true (some [rowFine, rowBadSat]) = [] ∧
    load_from_sheets true (some [rowFine]) ≠ [] :=
  ⟨by decide, by decide, by decide⟩

/-- C3 (amended): a row decodes exactly when its satisfaction cell is empty
or parses as an integer (short rows and all other malformed cells are
tolerated by padding and defaults), and any row of the fetched values that
fails this sends the entire load to the `except` branch, which returns the
empty collection. -/
theorem decode_fails_only_on_bad_satisfaction (row : List Str)
    (values : List (List Str)) :
    ((decodeRow row).isSome = true ↔
      (getCell row 5 = [] ∨ (pyInt (getCell row 5)).isSome = true)) ∧
    (row ∈ values → decodeRow row = none →
      load_from_sheets true (some values) = []) := by
  refine ⟨decodeRow_isSome_iff row, fun h1 h2 => ?_⟩
  have hnil : values ≠ [] := by rintro rfl; cases h1
  simp [load_from_sheets, hnil, decodeRows_none values row h1 h2]

/-- A row whose satisfaction cell holds the unparseable `"z"`. -/
def rowBadSat2 : List Str := [[], [], [], [], [], ['z']]

/-- A short row with only a text cell, decodable thanks to padding. -/
def rowTiny : List Str := [['t']]

/-- C3 witness: a corrupt row aborts the load of an otherwise decodable
collection. -/
theorem decode_fails_only_on_bad_satisfaction_witness :
    load_from_sheets true (some [rowTiny, rowBadSat2]) = [] :=
  (decode_fails_only_on_bad_satisfaction rowBadSat2 [rowTiny, rowBadSat2]).2
    (by decide) (by decide)

/-! ### Claim C4: degraded remote write -/

/-- C4: with the remote backend enabled and the remote append failing, the
submission handler still appends the record to the session store (so it is
retrievable there), leaves the remote rows untouched, surfaces the
"couldn't save to Google Sheets" warning, and still reports the submission
as recorded. -/
theorem append_degraded_durability (w : World) (r : Record) :
    (submitResponse true false w r).1.responses = w.responses ++ [r] ∧
    r ∈ (submitResponse true false w r).1.responses ∧
    (submitResponse true false w r).1.remote_rows = w.remote_rows ∧
    UiNote.noteWarnSheetsFailed ∈ (submitResponse true false w r).2 ∧
    UiNote.noteSuccessRecorded ∈ (submitResponse true false w r).2 := by
  refine ⟨rfl, ?_, rfl, ?_, ?_⟩ <;> simp [submitResponse, save_to_sheets]

/-! ### Claim C5: remote load replaces the local store -/

/-- C5: with the remote backend enabled, the refresh handler replaces the
session store with the decoded remote rows regardless of what it held
before, and a failed or empty remote read leaves the store empty. -/
theorem loadAll_replaces_store (w w' : World)
    (fetch : Option (List (List Str))) :
    ((refreshFromSheets true fetch w).responses =
      (refreshFromSheets true fetch w').responses) ∧
    (∀ values rs, fetch = some values → values ≠ [] →
      decodeRows values = some rs →
      (refreshFromSheets true fetch w).responses = rs) ∧
    ((fetch = none ∨ fetch = some []) →
      (refreshFromSheets true fetch w).responses = []) := by
  refine ⟨rfl, ?_, ?_⟩
  · rintro values rs rfl hne hdec
    simp [refreshFromSheets, load_from_sheets, hne, hdec]
  · rintro (rfl | rfl) <;> rfl

/-- A session that already holds two responses and an empty remote sheet. -/
def w0 : World := { responses := [blankRecord, blankRecord], remote_rows := [] }

/-- A row whose satisfaction cell holds `"2"`. -/
def rowSat2 : List Str := [[], [], [], [], [], ['2']]

/-- The record row `rowSat2` decodes to. -/
def recSat2 : Record := { blankRecord with satisfaction := 2 }

/-- C5 witness: refreshing a two-record session from a one-row sheet leaves
exactly the decoded row, and refreshing on a failed read leaves the empty
collection. -/
theorem loadAll_replaces_store_witness :
    (refreshFromSheets true (some [rowSat2]) w0).responses = [recSat2] ∧
    (refreshFromSheets true none w0).responses = [] :=
  ⟨(loadAll_replaces_store w0 w0 (some [rowSat2])).2.1 [rowSat2] [recSat2]
      rfl (by decide) (by decide),
   (loadAll_replaces_store w0 w0 none).2.2 (Or.inl rfl)⟩

/-! ### Claim C6: threshold rules of the insights section -/

/-- C6: over a non-empty collection, the low-satisfaction finding appears
exactly when the mean satisfaction is strictly below 3, and the financial
and academic findings appear exactly when the respective fraction of
"Yes" answers strictly exceeds 3/10. -/
theorem insight_threshold_rules (rs : List Record) (hne : rs ≠ []) :
    (Finding.lowSatisfaction ∈ insights rs ↔ avg_sat rs < 3) ∧
    (Finding.financialSupport ∈ insights rs ↔
      (3 : ℚ) / 10 < (financial_yes rs : ℚ) / (rs.length : ℚ)) ∧
    (Finding.academicBalance ∈ insights rs ↔
      (3 : ℚ) / 10 < (academic_yes rs : ℚ) / (rs.length : ℚ)) := by
  have hn : (0 : ℚ) < (rs.length : ℚ) := by
    have hlen : rs.length ≠ 0 := fun hz => hne (List.length_eq_zero.1 hz)
    exact_mod_cast Nat.pos_of_ne_zero hlen
  have hfrac : ∀ c : Nat,
      ((rs.length : ℚ) * (3 / 10) < (c : ℚ) ↔
        (3 : ℚ) / 10 < (c : ℚ) / (rs.length : ℚ)) := by
    intro c
    rw [div_lt_div_iff₀ (by norm_num) hn]
    constructor <;> intro h <;> nlinarith
  exact ⟨mem_insights_low rs, (mem_insights_financial rs).trans (hfrac _),
    (mem_insights_academic rs).trans (hfrac _)⟩

/-- A record answering "Yes" to the financial-challenges question. -/
def recYes : Record := { blankRecord with financial_challenges := yesLit }

/-- Ten records, four of them with financial challenges. -/
def rs4of10 : List Record :=
  List.replicate 4 recYes ++ List.replicate 6 blankRecord

/-- Ten records, two of them with financial challenges. -/
def rs2of10 : List Record :=
  List.replicate 2 recYes ++ List.replicate 8 blankRecord

/-- C6 witness: with 4 of 10 records reporting financial challenges the
finding is present, with 2 of 10 it is absent. -/
theorem insight_threshold_rules_witness :
    Finding.financialSupport ∈ insights rs4of10 ∧
    Finding.financialSupport ∉ insights rs2of10 := by
  constructor
  · refine (insight_threshold_rules rs4of10 (by decide)).2.1.mpr ?_
    rw [show financial_yes rs4of10 = 4 from by decide,
      show rs4of10.length = 10 from by decide]
    norm_num
  · intro hmem
    have hq := (insight_threshold_rules rs2of10 (by decide)).2.1.mp hmem
    rw [show financial_yes rs2of10 = 2 from by decide,
      show rs2of10.length = 10 from by decide] at hq
    norm_num at hq

/-! ### Claim C7: the satisfaction mean -/

/-- C7 counterexample: the mean of the empty collection is NaN (`none`), not
0 — the dashboard never computes it, showing the no-responses warning
instead. -/
theorem mean_empty_not_zero :
    meanSatisfaction ([] : List Record) = none ∧
    meanSatisfaction ([] : List Record) ≠ some 0 :=
  ⟨rfl, by decide⟩

/-- C7 (amended): over a non-empty collection the dashboard mean is the
exact arithmetic mean of the satisfaction column; the empty collection is
guarded away and has no 0 default (see the counterexample). -/
theorem mean_satisfaction_exact (rs : List Record) (h : rs ≠ []) :
    meanSatisfaction rs = some ((satisfactionSum rs : ℚ) / (rs.length : ℚ)) :=
  meanSatisfaction_eq rs h

/-- Five records with satisfaction 5, 4, 3, 2, 1. -/
def recsMean : List Record :=
  [{ blankRecord with satisfaction := 5 }, { blankRecord with satisfaction := 4 },
   blankRecord, { blankRecord with satisfaction := 2 },
   { blankRecord with satisfaction := 1 }]

/-- C7 witness: the mean of satisfactions `[5,4,3,2,1]` is exactly 3. -/
theorem mean_satisfaction_exact_witness :
    meanSatisfaction recsMean = some 3 := by
  have h1 : satisfactionSum recsMean = 15 := by decide
  have h2 : recsMean.length = 5 := by decide
  rw [mean_satisfaction_exact recsMean (by decide), h1, h2]
  norm_num

/-! ### Claim C8: ordering of the priority counts -/

/-- C8: the entries of `topN` each pair a category with its multiplicity in
the flattened priority list; they are ordered by count descending; tied
counts keep first-seen category order; and the focus-areas finding names
exactly the first three categories of this ordering. -/
theorem topN_ordering (rs : List Record) (n : Nat) (p : Str × Nat) (c : Nat) :
    (p ∈ topN (all_priorities rs) n →
      p.2 = (all_priorities rs).count p.1) ∧
    (topN (all_priorities rs) n).Pairwise (fun a b => b.2 ≤ a.2) ∧
    (((value_counts (all_priorities rs)).filter
        (fun q => decide (q.2 = c))).map Prod.fst =
      (firstSeenKeys (all_priorities rs)).filter
        (fun k => decide ((all_priorities rs).count k = c))) ∧
    (all_priorities rs ≠ [] → Finding.focusAreas (top_3 rs) ∈ insights rs) := by
  refine ⟨?_, ?_, value_counts_stable _ c, mem_insights_focus rs⟩
  · intro hp
    exact value_counts_count _ p (List.mem_of_mem_take hp)
  · exact (value_counts_pairwise _).sublist (List.take_sublist _ _)

/-- The category literal `"a"`. -/
def prA : Str := ['a']

/-- The category literal `"b"`. -/
def prB : Str := ['b']

/-- Two records: priorities `["a","b"]` and `["a"]`. -/
def rsPr : List Record :=
  [{ blankRecord with retreat_priorities := [prA, prB] },
   { blankRecord with retreat_priorities := [prA] }]

/-- C8 witness: the top entry `("a", 2)` carries the multiplicity of `"a"`,
and the focus-areas finding is present. -/
theorem topN_ordering_witness :
    (prA, 2).2 = (all_priorities rsPr).count (prA, 2).1 ∧
    Finding.focusAreas (top_3 rsPr) ∈ insights rsPr :=
  ⟨(topN_ordering rsPr 2 (prA, 2) 2).1 (by decide),
   (topN_ordering rsPr 2 (prA, 2) 2).2.2.2 (by decide)⟩

/-! ### Claim C9: the administrative clear -/

/-- C9: the clear handler empties the session store and performs no remote
operation — the remote rows are exactly what they were. -/
theorem clear_is_local_only (w : World) :
    (clearAllResponses w).responses = [] ∧
    (clearAllResponses w).remote_rows = w.remote_rows :=
  ⟨rfl, rfl⟩

/-! ### Claim C10: rows longer than 29 cells -/

/-- C10: a row with more than 29 entries decodes exactly as its first 29
entries do — the decoder reads positions 0..28 only. -/
theorem decode_ignores_extra_cells (row : List Str) (_h : 29 < row.length) :
    decodeRow row = decodeRow (row.take 29) := by
  refine decodeRow_eq_of_cells _ _ (fun i hi => ?_)
  rw [getCell_eq_getD, getCell_eq_getD, getD_take_nil _ _ _ hi]

/-- A 30-cell row: a decodable satisfaction cell and junk beyond cell 28. -/
def row30 : List Str :=
  [[], [], [], [], [], ['7']] ++ List.replicate 24 ['x']

/-- C10 witness: the 30-cell row decodes as its 29-cell truncation. -/
theorem decode_ignores_extra_cells_witness :
    29 < row30.length ∧ decodeRow row30 = decodeRow (row30.take 29) :=
  ⟨by decide, decode_ignores_extra_cells row30 (by decide)⟩
